import Mathlib

/-!
# Verification of the Arcade Flow Analyzer (`analyze_flow.py`)

This file shallowly embeds the core of `analyze_flow.py` in Lean 4:

* a JSON value type (`Json`) standing for the Python values that flow
  through `json.dumps` / `json.load` (numbers restricted to integers —
  no claim involves floats);
* the `CacheManager` (file-per-key store modelled as an association
  list with most-recent-write-first shadowing, plus `get_cache_key` =
  `md5(json.dumps(data, sort_keys=True).encode()).hexdigest()` with a
  full executable MD5);
* `FlowAnalyzer.extract_user_interactions` and
  `FlowAnalyzer._generate_action_description`, translated branch by
  branch;
* the cache-consulting skeletons of `FlowAnalyzer.generate_summary`
  and `FlowAnalyzer.generate_social_media_image` (network effects are
  abstracted: the value the collaborator would return is a parameter,
  and the result records which URL/text was used, whether the remote
  generation call was issued, and the resulting cache state; Python
  exceptions such as `KeyError` become `Option.none`).

Python strings are modelled as Lean `String`s (`str.lower`, `str.strip`,
`in`, `replace` are given explicit ASCII-faithful definitions below).
-/

/-- JSON values (Python objects that survive `json.dump`/`json.load`).
Object fields keep their insertion order, as Python dicts do; numbers
are integers (no claim exercises floats). -/
inductive Json where
  | null : Json
  | bool (b : Bool) : Json
  | num (n : Int) : Json
  | str (s : String) : Json
  | arr (elems : List Json) : Json
  | obj (fields : List (String × Json)) : Json

/-- First binding of a key in an association list, i.e. Python dict
lookup once duplicate keys are ruled out. -/
def lookupJ (k : String) : List (String × Json) → Option Json
  | [] => none
  | (k', v) :: rest => if k' == k then some v else lookupJ k rest

/-- Python truthiness (`if cached:`) of a decoded JSON value:
`None`, `False`, `0`, `""`, `[]`, `{}` are falsy. -/
def pyTruthy : Json → Bool
  | .null => false
  | .bool b => b
  | .num n => n != 0
  | .str s => s != ""
  | .arr l => !l.isEmpty
  | .obj l => !l.isEmpty

/-! ## Python string helpers -/

/-- `str.lower` (ASCII case folding; every string the claims exercise
is ASCII). -/
def pyLower (s : String) : String := String.mk (s.toList.map Char.toLower)

/-- Characters `str.strip()` removes: Python's ASCII whitespace. -/
def isPySpace (c : Char) : Bool :=
  c == ' ' || c == '\t' || c == '\n' || c == '\x0d' || c == '\x0b' || c == '\x0c'

/-- `str.strip()`: drop leading and trailing whitespace. -/
def pyStrip (s : String) : String :=
  String.mk (((s.toList.dropWhile isPySpace).reverse.dropWhile isPySpace).reverse)

/-- `s.replace('*', '')`: remove every literal asterisk. -/
def removeStars (s : String) : String :=
  String.mk (s.toList.filter (fun c => c != '*'))

/-- Is `pre` a prefix of the second list? -/
def prefixEq : List Char → List Char → Bool
  | [], _ => true
  | _ :: _, [] => false
  | a :: as, b :: bs => a == b && prefixEq as bs

/-- Contiguous-substring test on character lists. -/
def substrAux (needle : List Char) : List Char → Bool
  | [] => needle.isEmpty
  | c :: rest => prefixEq needle (c :: rest) || substrAux needle rest

/-- Python's `pat in hay` on strings: contiguous substring containment. -/
def hasSubstr (hay pat : String) : Bool := substrAux pat.toList hay.toList

/-! ## Flow document data model (§3 of the spec / `flow.json` fields
read by `extract_user_interactions`) -/

/-- One entry of an IMAGE step's `hotspots` list; only `label` is read. -/
structure Hotspot where
  label : String

/-- `step['clickContext']`; only `text` and `elementType` are read. -/
structure ClickContext where
  text : String
  elementType : String

/-- `step['pageContext']`; only `url` is read. -/
structure PageContext where
  url : String

/-- One element of `flow_data['steps']` (missing fields default to the
empty string / empty list, as `dict.get` does). -/
structure Step where
  type : String
  title : String
  subtitle : String
  clickContext : ClickContext
  pageContext : PageContext
  hotspots : List Hotspot

/-- One element of `flow_data['capturedEvents']`; only `type` is read. -/
structure Event where
  type : String

/-- The flow document fields the analyzer core reads. -/
structure FlowData where
  name : String
  steps : List Step
  capturedEvents : List Event

/-- One interaction dict appended by `extract_user_interactions`.
Fields absent from a given branch's dict literal are `none`. -/
structure Interaction where
  type : String
  action : String
  details : Option String
  url : Option String
  element_type : Option String
deriving DecidableEq

namespace FlowAnalyzer

/-- The element-type indexed fallback chain of
`_generate_action_description` (everything after the hotspot branch). -/
def clickFallback (text element_type : String) : String :=
  if element_type == "button" then
    if hasSubstr (pyLower text) "cart" then
      "Clicked \x27" ++ text ++ "\x27 button"
    else
      "Clicked the \x27" ++ text ++ "\x27 button"
  else if element_type == "image" then
    if text != "" then "Clicked on \x27" ++ text ++ "\x27 image"
    else "Clicked on product image"
  else if element_type == "link" then
    if hasSubstr (pyLower text) "cart" then
      "Clicked on shopping cart icon to view cart"
    else
      "Clicked link: " ++ text
  else if element_type == "other" && hasSubstr (pyLower text) "search" then
    "Clicked the search bar to start looking for products"
  else if text != "" then "Interacted with " ++ text
  else "Performed an action"

/-- `FlowAnalyzer._generate_action_description(text, element_type,
click_context, page_context, hotspots)`: prefer the first hotspot's
cleaned label; otherwise fall through to `clickFallback`.
`click_context` and `page_context` are parameters the Python body never
reads. -/
def generate_action_description (text element_type : String)
    (_click_context : ClickContext) (_page_context : PageContext)
    (hotspots : List Hotspot) : String :=
  match hotspots with
  | [] => clickFallback text element_type
  | h :: _ =>
      if h.label != "" then pyStrip (removeStars h.label)
      else clickFallback text element_type

/-- The loop body of the `for step in steps` loop of
`extract_user_interactions`: conditionally appends one interaction. -/
def processStep (acc : List Interaction) (step : Step) : List Interaction :=
  if step.type == "CHAPTER" then
    if step.title != "" && !hasSubstr (pyLower step.title) "thank you" then
      acc ++ [{ type := "chapter"
                action := "Started section: " ++ step.title
                details := some step.subtitle
                url := none
                element_type := none }]
    else acc
  else if step.type == "IMAGE" then
    let action := generate_action_description step.clickContext.text
      step.clickContext.elementType step.clickContext step.pageContext step.hotspots
    if action != "" then
      acc ++ [{ type := "click"
                action := action
                details := none
                url := some step.pageContext.url
                element_type := some step.clickContext.elementType }]
    else acc
  else if step.type == "VIDEO" then
    acc
  else
    acc

/-- The loop body of the `for event in events` loop of
`extract_user_interactions`. -/
def processEvent (acc : List Interaction) (event : Event) : List Interaction :=
  if event.type == "typing" then
    acc ++ [{ type := "typing"
              action := "Typed search query"
              details := some "User entered text in search field"
              url := none
              element_type := none }]
  else if event.type == "scrolling" then
    acc ++ [{ type := "scroll"
              action := "Scrolled page to view more content"
              details := some "User browsed through available options"
              url := none
              element_type := none }]
  else
    acc

/-- `FlowAnalyzer.extract_user_interactions`: one pass over `steps`,
then one pass over `capturedEvents`, each appending to `interactions`. -/
def extract_user_interactions (flow : FlowData) : List Interaction :=
  flow.capturedEvents.foldl processEvent (flow.steps.foldl processStep [])

end FlowAnalyzer

/-! ## MD5 (`hashlib.md5(...).hexdigest()`), executable, over byte lists -/

/-- `2^32`, the word modulus of MD5. -/
def M32 : Nat := 4294967296

/-- Rotate a 32-bit word left by `n` bits. -/
def rotl32 (x n : Nat) : Nat := (((x <<< n) % M32) ||| (x >>> (32 - n)))

/-- The 64 MD5 sine-derived constants `K[i] = floor(2^32 * |sin(i+1)|)`. -/
def md5K : List Nat :=
  [0xd76aa478, 0xe8c7b756, 0x242070db, 0xc1bdceee,
   0xf57c0faf, 0x4787c62a, 0xa8304613, 0xfd469501,
   0x698098d8, 0x8b44f7af, 0xffff5bb1, 0x895cd7be,
   0x6b901122, 0xfd987193, 0xa679438e, 0x49b40821,
   0xf61e2562, 0xc040b340, 0x265e5a51, 0xe9b6c7aa,
   0xd62f105d, 0x02441453, 0xd8a1e681, 0xe7d3fbc8,
   0x21e1cde6, 0xc33707d6, 0xf4d50d87, 0x455a14ed,
   0xa9e3e905, 0xfcefa3f8, 0x676f02d9, 0x8d2a4c8a,
   0xfffa3942, 0x8771f681, 0x6d9d6122, 0xfde5380c,
   0xa4beea44, 0x4bdecfa9, 0xf6bb4b60, 0xbebfbc70,
   0x289b7ec6, 0xeaa127fa, 0xd4ef3085, 0x04881d05,
   0xd9d4d039, 0xe6db99e5, 0x1fa27cf8, 0xc4ac5665,
   0xf4292244, 0x432aff97, 0xab9423a7, 0xfc93a039,
   0x655b59c3, 0x8f0ccc92, 0xffeff47d, 0x85845dd1,
   0x6fa87e4f, 0xfe2ce6e0, 0xa3014314, 0x4e0811a1,
   0xf7537e82, 0xbd3af235, 0x2ad7d2bb, 0xeb86d391]

/-- The MD5 per-round left-rotation amounts. -/
def md5S : List Nat :=
  [7, 12, 17, 22, 7, 12, 17, 22, 7, 12, 17, 22, 7, 12, 17, 22,
   5, 9, 14, 20, 5, 9, 14, 20, 5, 9, 14, 20, 5, 9, 14, 20,
   4, 11, 16, 23, 4, 11, 16, 23, 4, 11, 16, 23, 4, 11, 16, 23,
   6, 10, 15, 21, 6, 10, 15, 21, 6, 10, 15, 21, 6, 10, 15, 21]

/-- The MD5 nonlinear mixing function for round `i`. -/
def md5F (i b c d : Nat) : Nat :=
  if i < 16 then (b &&& c) ||| ((b ^^^ 4294967295) &&& d)
  else if i < 32 then (d &&& b) ||| ((d ^^^ 4294967295) &&& c)
  else if i < 48 then b ^^^ c ^^^ d
  else c ^^^ (b ||| (d ^^^ 4294967295))

/-- The MD5 message-word index for round `i`. -/
def md5G (i : Nat) : Nat :=
  if i < 16 then i
  else if i < 32 then (5 * i + 1) % 16
  else if i < 48 then (3 * i + 5) % 16
  else (7 * i) % 16

/-- One MD5 round applied to the running state `(a, b, c, d)`;
`m j` is the `j`-th little-endian 32-bit word of the current chunk. -/
def md5Round (m : Nat → Nat) (st : Nat × Nat × Nat × Nat) (i : Nat) :
    Nat × Nat × Nat × Nat :=
  let (a, b, c, d) := st
  let f := (md5F i b c d + a + md5K.getD i 0 + m (md5G i)) % M32
  (d, (b + rotl32 f (md5S.getD i 0)) % M32, b, c)

/-- Process one 64-byte chunk, adding the mixed state to the incoming
state word-wise mod `2^32`. -/
def md5Chunk (st : Nat × Nat × Nat × Nat) (chunk : List Nat) :
    Nat × Nat × Nat × Nat :=
  let m := fun j => chunk.getD (4 * j) 0 + 256 * chunk.getD (4 * j + 1) 0 +
    65536 * chunk.getD (4 * j + 2) 0 + 16777216 * chunk.getD (4 * j + 3) 0
  let r := (List.range 64).foldl (md5Round m) st
  ((st.1 + r.1) % M32, (st.2.1 + r.2.1) % M32,
   (st.2.2.1 + r.2.2.1) % M32, (st.2.2.2 + r.2.2.2) % M32)

/-- Split a byte list into 64-byte chunks. -/
def chunks64 : List Nat → List (List Nat)
  | [] => []
  | b :: rest => ((b :: rest).take 64) :: chunks64 ((b :: rest).drop 64)
termination_by l => l.length
decreasing_by simp; omega

/-- MD5 padding: `0x80`, zeros to 56 mod 64, then the bit length as a
64-bit little-endian integer. -/
def md5Pad (msg : List Nat) : List Nat :=
  let z := (120 - (msg.length + 1) % 64) % 64
  let bl := (msg.length * 8) % (2 ^ 64)
  msg ++ [128] ++ List.replicate z 0 ++
    [bl % 256, bl / 256 % 256, bl / 65536 % 256, bl / 16777216 % 256,
     bl / 4294967296 % 256, bl / 1099511627776 % 256,
     bl / 281474976710656 % 256, bl / 72057594037927936 % 256]

/-- The MD5 state after absorbing a whole (padded) message. -/
def md5Digest (msg : List Nat) : Nat × Nat × Nat × Nat :=
  (chunks64 (md5Pad msg)).foldl md5Chunk
    (0x67452301, 0xefcdab89, 0x98badcfe, 0x10325476)

/-- The four little-endian bytes of a 32-bit word. -/
def wordLE (w : Nat) : List Nat :=
  [w % 256, w / 256 % 256, w / 65536 % 256, w / 16777216 % 256]

/-- Lowercase hexadecimal digit characters. -/
def hexDigit (n : Nat) : Char := "0123456789abcdef".toList.getD n '0'

/-- Render bytes as lowercase hex, two characters per byte. -/
def hexOfBytes : List Nat → List Char
  | [] => []
  | b :: rest => hexDigit (b / 16 % 16) :: hexDigit (b % 16) :: hexOfBytes rest

/-- `hashlib.md5(bytes).hexdigest()`: 16 digest bytes as 32 hex chars. -/
def md5Hex (msg : List Nat) : String :=
  let d := md5Digest msg
  String.mk (hexOfBytes (wordLE d.1 ++ wordLE d.2.1 ++ wordLE d.2.2.1 ++ wordLE d.2.2.2))

/-! ## `json.dumps(data, sort_keys=True)` -/

/-- Escape one character as Python's `json.dumps` does with its default
`ensure_ascii=True`: `"` and `\` get a backslash, the common control
characters use their short escapes, other control and all non-ASCII
characters become `\uXXXX` (with surrogate pairs above the BMP). -/
def escapeChar (c : Char) : List Char :=
  if c == '\x22' then ['\\', '\x22']
  else if c == '\\' then ['\\', '\\']
  else if c == '\x08' then ['\\', 'b']
  else if c == '\x0c' then ['\\', 'f']
  else if c == '\n' then ['\\', 'n']
  else if c == '\x0d' then ['\\', 'r']
  else if c == '\t' then ['\\', 't']
  else if c.toNat < 32 || c.toNat > 126 then
    if c.toNat < 65536 then
      ['\\', 'u', hexDigit (c.toNat / 4096 % 16), hexDigit (c.toNat / 256 % 16),
       hexDigit (c.toNat / 16 % 16), hexDigit (c.toNat % 16)]
    else
      let v := c.toNat - 65536
      let hi := 0xd800 + v / 1024
      let lo := 0xdc00 + v % 1024
      ['\\', 'u', hexDigit (hi / 4096 % 16), hexDigit (hi / 256 % 16),
       hexDigit (hi / 16 % 16), hexDigit (hi % 16),
       '\\', 'u', hexDigit (lo / 4096 % 16), hexDigit (lo / 256 % 16),
       hexDigit (lo / 16 % 16), hexDigit (lo % 16)]
  else [c]

/-- A JSON string literal: quotes around the escaped characters. -/
def serString (s : String) : String :=
  "\x22" ++ String.mk (s.toList.flatMap escapeChar) ++ "\x22"

/-- Decimal rendering of an integer, as Python prints `int`. -/
def serInt (n : Int) : String :=
  if n < 0 then "-" ++ Nat.repr n.natAbs else Nat.repr n.natAbs

/-- Insert a field into a key-sorted field list (sorting by the
code-point order Python's `sorted` uses on `str`). -/
def insertPair (p : String × Json) : List (String × Json) → List (String × Json)
  | [] => [p]
  | q :: rest => if p.1 ≤ q.1 then p :: q :: rest else q :: insertPair p rest

/-- Insertion sort of object fields by key. -/
def sortPairs : List (String × Json) → List (String × Json)
  | [] => []
  | p :: rest => insertPair p (sortPairs rest)

/-- Recursively sort every object's fields by key: the value whose
plain serialization equals `json.dumps(·, sort_keys=True)` of the
original. -/
def canon : Json → Json
  | .null => .null
  | .bool b => .bool b
  | .num n => .num n
  | .str s => .str s
  | .arr xs => .arr (xs.attach.map fun x => canon x.1)
  | .obj fs => .obj (sortPairs (fs.attach.map fun p => (p.1.1, canon p.1.2)))
termination_by j => sizeOf j
decreasing_by
  · have := List.sizeOf_lt_of_mem x.2
    simp only [Json.arr.sizeOf_spec]
    omega
  · have h1 := List.sizeOf_lt_of_mem p.2
    have h2 : sizeOf p.1.2 < sizeOf p.1 := by
      obtain ⟨a, b⟩ := p.1
      simp only [Prod.mk.sizeOf_spec]
      omega
    simp only [Json.obj.sizeOf_spec]
    omega

/-- Serialize a JSON value with the separators `json.dumps` uses by
default (`", "` and `": "`); no sorting here — `canon` has sorted. -/
def ser : Json → String
  | .null => "null"
  | .bool b => if b then "true" else "false"
  | .num n => serInt n
  | .str s => serString s
  | .arr xs => "[" ++ String.intercalate ", " (xs.attach.map fun x => ser x.1) ++ "]"
  | .obj fs => "\x7b" ++ String.intercalate ", "
      (fs.attach.map fun p => serString p.1.1 ++ ": " ++ ser p.1.2) ++ "\x7d"
termination_by j => sizeOf j
decreasing_by
  · have := List.sizeOf_lt_of_mem x.2
    simp only [Json.arr.sizeOf_spec]
    omega
  · have h1 := List.sizeOf_lt_of_mem p.2
    have h2 : sizeOf p.1.2 < sizeOf p.1 := by
      obtain ⟨a, b⟩ := p.1
      simp only [Prod.mk.sizeOf_spec]
      omega
    simp only [Json.obj.sizeOf_spec]
    omega

/-- `json.dumps(data, sort_keys=True)`: serialize with every object's
keys in sorted order. -/
def dumps (j : Json) : String := ser (canon j)

/-! ## `CacheManager` -/

/-- The cache directory, as an association list from key to the JSON
value stored in `.cache/{key}.json`; the most recent write for a key
comes first. -/
abbrev CacheStore := List (String × Json)

namespace CacheManager

/-- `CacheManager.get_cache_key`: `json.dumps(data, sort_keys=True)`
(pure ASCII under the default `ensure_ascii`, so `.encode()` yields the
code points) hashed with MD5, as a hex digest. -/
def get_cache_key (data : Json) : String :=
  md5Hex ((dumps data).toList.map Char.toNat)

/-- `CacheManager.get_cached`: the stored JSON value when
`.cache/{key}.json` exists, and Python `None` (= `Json.null`) when the
file was never written. -/
def get_cached (σ : CacheStore) (cache_key : String) : Json :=
  (lookupJ cache_key σ).getD .null

/-- `CacheManager.set_cache`: (over)write `.cache/{key}.json`. -/
def set_cache (σ : CacheStore) (cache_key : String) (data : Json) : CacheStore :=
  (cache_key, data) :: σ

end CacheManager

/-! ## Dict equality (key-order-insensitive payload equality) -/

/-- No key occurs twice: the well-formedness every list obtained from a
Python dict enjoys. -/
def nodupKeys : List (String × Json) → Bool
  | [] => true
  | (k, _) :: rest => !(rest.any fun q => q.1 == k) && nodupKeys rest

/-- Python `==` on decoded JSON values: key-order-insensitive on
objects (same keys bound to equal values, insertion order ignored),
pointwise on arrays, plain equality on scalars.  Object sides are
required to be dicts, i.e. duplicate-key free. -/
def Json.equiv : Json → Json → Bool
  | .null, .null => true
  | .bool a, .bool b => a == b
  | .num a, .num b => a == b
  | .str a, .str b => a == b
  | .arr xs, .arr ys =>
      xs.length == ys.length &&
      (xs.zip ys).attach.all fun p => Json.equiv p.1.1 p.1.2
  | .obj fs, .obj gs =>
      fs.length == gs.length && nodupKeys fs && nodupKeys gs &&
      fs.attach.all fun p =>
        match lookupJ p.1.1 gs with
        | some w => Json.equiv p.1.2 w
        | none => false
  | _, _ => false
termination_by a _ => sizeOf a
decreasing_by
  · obtain ⟨⟨x, y⟩, hmem⟩ := p
    have := List.sizeOf_lt_of_mem (List.of_mem_zip hmem).1
    simp only [Json.arr.sizeOf_spec]
    omega
  · have h1 := List.sizeOf_lt_of_mem p.2
    have h2 : sizeOf p.1.2 < sizeOf p.1 := by
      obtain ⟨a, b⟩ := p.1
      simp only [Prod.mk.sizeOf_spec]
      omega
    simp only [Json.obj.sizeOf_spec]
    omega

/-! ## The two cache-consulting generators

The network is outside the model, so the text/URL the remote
collaborator would produce is passed in as a parameter (`fresh_*`).
Each function returns `(value used, whether the remote generation call
was issued, resulting cache state)`; `none` models a raised Python
exception (`KeyError`/`TypeError` on a malformed cached entry). -/

namespace FlowAnalyzer

/-- The interaction dict as the JSON value `json.dumps` would see
inside the summary cache-key payload. -/
def interactionToJson (i : Interaction) : Json :=
  .obj ([("type", .str i.type), ("action", .str i.action)] ++
    (match i.details with | some d => [("details", Json.str d)] | none => []) ++
    (match i.url with | some u => [("url", Json.str u)] | none => []) ++
    (match i.element_type with
     | some e => [("element_type", Json.str e)] | none => []))

/-- The cache key `generate_summary` computes for a given flow name and
interaction list. -/
def summaryCacheKey (flow_name : String) (interactions : List Interaction) : String :=
  CacheManager.get_cache_key (.obj
    [("task", .str "summary"),
     ("flow_name", .str flow_name),
     ("interactions", .arr (interactions.map interactionToJson))])

/-- `FlowAnalyzer.generate_summary`, network abstracted: on a truthy
cached entry return `cached['summary']` without calling the remote
service; otherwise call it (`fresh_summary` is the completion text the
service returns), strip it, cache `{'summary': ...}` and return it. -/
def generate_summary (σ : CacheStore) (flow_name : String)
    (interactions : List Interaction) (fresh_summary : String) :
    Option (Json × Bool × CacheStore) :=
  let cache_key := summaryCacheKey flow_name interactions
  let cached := CacheManager.get_cached σ cache_key
  if pyTruthy cached then
    match cached with
    | .obj fs =>
        match lookupJ "summary" fs with
        | some v => some (v, false, σ)
        | none => none
    | _ => none
  else
    let summary := pyStrip fresh_summary
    some (.str summary, true,
      CacheManager.set_cache σ cache_key (.obj [("summary", .str summary)]))

/-- The cache key `generate_social_media_image` computes. -/
def imageCacheKey (flow_name summary : String) : String :=
  CacheManager.get_cache_key (.obj
    [("task", .str "image"),
     ("flow_name", .str flow_name),
     ("summary", .str summary)])

/-- `FlowAnalyzer.generate_social_media_image`, network abstracted: on
a truthy cached entry reuse `cached['image_url']` with no remote call;
otherwise call DALL-E (`fresh_url` is the URL it returns) and cache
`{'image_url': ...}`.  The returned string is the URL subsequently
downloaded. -/
def generate_social_media_image (σ : CacheStore) (flow_name summary : String)
    (fresh_url : String) : Option (String × Bool × CacheStore) :=
  let cache_key := imageCacheKey flow_name summary
  let cached := CacheManager.get_cached σ cache_key
  if pyTruthy cached then
    match cached with
    | .obj fs =>
        match lookupJ "image_url" fs with
        | some (.str u) => some (u, false, σ)
        | _ => none
    | _ => none
  else
    some (fresh_url, true,
      CacheManager.set_cache σ cache_key (.obj [("image_url", .str fresh_url)]))

end FlowAnalyzer

/-! ## Helper lemmas -/

theorem ne_empty_of_length {s : String} (h : s.length ≠ 0) : s ≠ "" :=
  fun he => h (he ▸ rfl)

theorem append2_ne_empty (a b : String) (h : a.length ≠ 0) : a ++ b ≠ "" :=
  ne_empty_of_length (by rw [String.length_append]; omega)

theorem append3_ne_empty (a b c : String) (h : a.length ≠ 0) : a ++ b ++ c ≠ "" :=
  append2_ne_empty (a ++ b) c (by rw [String.length_append]; omega)

/-- Every branch of the context fallback returns a non-empty string, so
an IMAGE step without a usable hotspot label still yields an
interaction. -/
theorem clickFallback_ne_empty (text element_type : String) :
    FlowAnalyzer.clickFallback text element_type ≠ "" := by
  unfold FlowAnalyzer.clickFallback
  split_ifs <;>
    first
      | decide
      | exact append3_ne_empty _ _ _ (by decide)
      | exact append2_ne_empty _ _ (by decide)

namespace FlowAnalyzer

/-- The zero-or-one interaction a single step contributes. -/
def stepDescriptor (step : Step) : Option Interaction :=
  if step.type == "CHAPTER" then
    if step.title != "" && !hasSubstr (pyLower step.title) "thank you" then
      some { type := "chapter"
             action := "Started section: " ++ step.title
             details := some step.subtitle
             url := none
             element_type := none }
    else none
  else if step.type == "IMAGE" then
    let action := generate_action_description step.clickContext.text
      step.clickContext.elementType step.clickContext step.pageContext step.hotspots
    if action != "" then
      some { type := "click"
             action := action
             details := none
             url := some step.pageContext.url
             element_type := some step.clickContext.elementType }
    else none
  else none

/-- The zero-or-one interaction a single captured event contributes. -/
def eventDescriptor (event : Event) : Option Interaction :=
  if event.type == "typing" then
    some { type := "typing"
           action := "Typed search query"
           details := some "User entered text in search field"
           url := none
           element_type := none }
  else if event.type == "scrolling" then
    some { type := "scroll"
           action := "Scrolled page to view more content"
           details := some "User browsed through available options"
           url := none
           element_type := none }
  else none

theorem processStep_eq (acc : List Interaction) (step : Step) :
    processStep acc step = acc ++ (stepDescriptor step).toList := by
  unfold processStep stepDescriptor
  dsimp only
  split_ifs <;> simp

theorem processEvent_eq (acc : List Interaction) (event : Event) :
    processEvent acc event = acc ++ (eventDescriptor event).toList := by
  unfold processEvent eventDescriptor
  split_ifs <;> simp

theorem foldl_append_filterMap {α β : Type} (f : α → Option β) (l : List α)
    (init : List β) :
    l.foldl (fun acc x => acc ++ (f x).toList) init = init ++ l.filterMap f := by
  induction l generalizing init with
  | nil => simp
  | cons x xs ih =>
      simp only [List.foldl_cons, List.filterMap_cons, ih]
      cases f x <;> simp

end FlowAnalyzer

namespace CacheManager

theorem get_set_same (σ : CacheStore) (k : String) (v : Json) :
    get_cached (set_cache σ k v) k = v := by
  simp [get_cached, set_cache, lookupJ]

theorem get_set_other (σ : CacheStore) (k k' : String) (v : Json) (h : k ≠ k') :
    get_cached (set_cache σ k v) k' = get_cached σ k' := by
  simp only [get_cached, set_cache, lookupJ]
  rw [if_neg]
  simp [h]

theorem get_fresh (σ : CacheStore) (k : String) (h : ∀ w, (k, w) ∉ σ) :
    get_cached σ k = .null := by
  induction σ with
  | nil => rfl
  | cons p rest ih =>
      obtain ⟨k', v⟩ := p
      simp only [get_cached, lookupJ]
      rw [if_neg]
      · exact ih fun w hw => h w (List.mem_cons_of_mem _ hw)
      · intro hbeq
        exact h v (by rw [eq_of_beq hbeq]; exact List.mem_cons_self _ _)

end CacheManager

/-! ## Equation lemmas for the well-founded definitions -/

theorem equiv_null : Json.equiv .null .null = true := by simp [Json.equiv]

theorem equiv_bool (a b : Bool) : Json.equiv (.bool a) (.bool b) = (a == b) := by
  simp [Json.equiv]

theorem equiv_num (a b : Int) : Json.equiv (.num a) (.num b) = (a == b) := by
  simp [Json.equiv]

theorem equiv_str (a b : String) : Json.equiv (.str a) (.str b) = (a == b) := by
  simp [Json.equiv]

theorem equiv_arr (xs ys : List Json) :
    Json.equiv (.arr xs) (.arr ys) =
      (xs.length == ys.length && (xs.zip ys).all fun p => Json.equiv p.1 p.2) := by
  simp only [Json.equiv]
  rw [Bool.eq_iff_iff]
  simp [List.all_eq_true]

theorem equiv_obj (fs gs : List (String × Json)) :
    Json.equiv (.obj fs) (.obj gs) =
      (fs.length == gs.length && nodupKeys fs && nodupKeys gs &&
        fs.all fun p =>
          match lookupJ p.1 gs with
          | some w => Json.equiv p.2 w
          | none => false) := by
  simp only [Json.equiv]
  rw [Bool.eq_iff_iff]
  simp [List.all_eq_true]

theorem canon_null : canon .null = .null := by simp [canon]

theorem canon_bool (b : Bool) : canon (.bool b) = .bool b := by simp [canon]

theorem canon_num (n : Int) : canon (.num n) = .num n := by simp [canon]

theorem canon_str (s : String) : canon (.str s) = .str s := by simp [canon]

theorem canon_arr (xs : List Json) : canon (.arr xs) = .arr (xs.map canon) := by
  simp only [canon]
  exact congrArg Json.arr (List.attach_map_val xs canon)

theorem canon_obj (fs : List (String × Json)) :
    canon (.obj fs) = .obj (sortPairs (fs.map fun p => (p.1, canon p.2))) := by
  simp only [canon]
  exact congrArg (fun l => Json.obj (sortPairs l))
    (List.attach_map_val fs fun p => (p.1, canon p.2))

/-! ## Association-list lemmas -/

theorem nodupKeys_iff :
    ∀ l : List (String × Json), nodupKeys l = true ↔ (l.map Prod.fst).Nodup := by
  intro l
  induction l with
  | nil => simp [nodupKeys]
  | cons p rest ih =>
      obtain ⟨k, v⟩ := p
      simp only [nodupKeys, Bool.and_eq_true, List.map_cons, List.nodup_cons, ih]
      constructor
      · rintro ⟨h1, h2⟩
        refine ⟨?_, h2⟩
        intro hk
        obtain ⟨q, hq, hqk⟩ := List.mem_map.mp hk
        rw [Bool.not_eq_true', List.any_eq_false] at h1
        have := h1 q hq
        simp [hqk] at this
      · rintro ⟨h1, h2⟩
        refine ⟨?_, h2⟩
        rw [Bool.not_eq_true', List.any_eq_false]
        intro q hq
        simp only [beq_iff_eq]
        intro hqk
        exact h1 (List.mem_map.mpr ⟨q, hq, hqk⟩)

theorem lookupJ_mem {k : String} {v : Json} :
    ∀ {l : List (String × Json)}, lookupJ k l = some v → (k, v) ∈ l := by
  intro l
  induction l with
  | nil => simp [lookupJ]
  | cons p rest ih =>
      obtain ⟨k', v'⟩ := p
      simp only [lookupJ]
      split_ifs with h
      · intro he
        obtain rfl : v' = v := by simpa using he
        obtain rfl : k' = k := eq_of_beq h
        exact List.mem_cons_self _ _
      · intro he
        exact List.mem_cons_of_mem _ (ih he)

theorem mem_lookupJ {k : String} {v : Json} :
    ∀ {l : List (String × Json)}, (l.map Prod.fst).Nodup → (k, v) ∈ l →
      lookupJ k l = some v := by
  intro l
  induction l with
  | nil => simp
  | cons p rest ih =>
      obtain ⟨k', v'⟩ := p
      intro hnd hmem
      simp only [List.map_cons, List.nodup_cons, List.mem_map] at hnd
      rcases List.mem_cons.mp hmem with he | hrest
      · injection he with hk hv
        subst hk
        subst hv
        simp [lookupJ]
      · have hne : ¬(k' == k) = true := by
          intro hb
          exact hnd.1 ⟨(k, v), hrest, (eq_of_beq hb).symm⟩
        simp only [lookupJ, if_neg hne]
        exact ih hnd.2 hrest

/-! ## Sorting lemmas: `sortPairs` sorts fields by key, and a
strictly-key-sorted field list is determined by its members -/

/-- Non-strict key order on fields. -/
def keyLe (p q : String × Json) : Prop := p.1 ≤ q.1

/-- Strict key order on fields. -/
def keyLt (p q : String × Json) : Prop := p.1 < q.1

theorem insertPair_perm (p : String × Json) :
    ∀ l : List (String × Json), (insertPair p l).Perm (p :: l) := by
  intro l
  induction l with
  | nil => simp [insertPair]
  | cons q rest ih =>
      simp only [insertPair]
      split_ifs
      · exact List.Perm.refl _
      · exact (List.Perm.cons q ih).trans (List.Perm.swap p q rest)

theorem sortPairs_perm : ∀ l : List (String × Json), (sortPairs l).Perm l := by
  intro l
  induction l with
  | nil => simp [sortPairs]
  | cons p rest ih =>
      exact (insertPair_perm p (sortPairs rest)).trans (List.Perm.cons p ih)

theorem insertPair_sorted (p : String × Json) {l : List (String × Json)}
    (h : l.Pairwise keyLe) : (insertPair p l).Pairwise keyLe := by
  induction l with
  | nil => simp [insertPair, keyLe]
  | cons q rest ih =>
      simp only [insertPair]
      rcases List.pairwise_cons.mp h with ⟨hq, hrest⟩
      split_ifs with hle
      · refine List.pairwise_cons.mpr ⟨?_, h⟩
        intro r hr
        rcases List.mem_cons.mp hr with rfl | hr'
        · exact hle
        · exact le_trans hle (hq r hr')
      · refine List.pairwise_cons.mpr ⟨?_, ih hrest⟩
        intro r hr
        have : r ∈ p :: rest := (insertPair_perm p rest).mem_iff.mp hr
        rcases List.mem_cons.mp this with rfl | hr'
        · exact le_of_not_le hle
        · exact hq r hr'

theorem sortPairs_sorted : ∀ l : List (String × Json), (sortPairs l).Pairwise keyLe := by
  intro l
  induction l with
  | nil => simp [sortPairs]
  | cons p rest ih => exact insertPair_sorted p ih

/-- Sorted-by-`≤` plus duplicate-free keys gives strictly increasing keys. -/
theorem pairwise_lt_of_le_nodup {l : List (String × Json)}
    (h1 : l.Pairwise keyLe) (h2 : (l.map Prod.fst).Nodup) : l.Pairwise keyLt := by
  have hne : l.Pairwise fun p q => p.1 ≠ q.1 := List.pairwise_map.mp h2
  exact (h1.and hne).imp fun hpq => lt_of_le_of_ne hpq.1 hpq.2

/-- Two strictly-key-sorted field lists with the same members are
equal. -/
theorem eq_of_sorted_of_mem :
    ∀ {l₁ l₂ : List (String × Json)}, l₁.Pairwise keyLt → l₂.Pairwise keyLt →
      (∀ p, p ∈ l₁ ↔ p ∈ l₂) → l₁ = l₂ := by
  intro l₁
  induction l₁ with
  | nil =>
      intro l₂ _ _ hmem
      exact (List.eq_nil_iff_forall_not_mem.mpr fun p hp =>
        List.not_mem_nil p ((hmem p).mpr hp)).symm
  | cons p₁ t₁ ih =>
      intro l₂ hs₁ hs₂ hmem
      cases l₂ with
      | nil => exact absurd ((hmem p₁).mp (List.mem_cons_self _ _)) (List.not_mem_nil _)
      | cons p₂ t₂ =>
          rcases List.pairwise_cons.mp hs₁ with ⟨hp₁, ht₁⟩
          rcases List.pairwise_cons.mp hs₂ with ⟨hp₂, ht₂⟩
          have heq : p₁ = p₂ := by
            rcases List.mem_cons.mp ((hmem p₁).mp (List.mem_cons_self _ _)) with h | h
            · exact h
            · rcases List.mem_cons.mp ((hmem p₂).mpr (List.mem_cons_self _ _)) with h' | h'
              · exact h'.symm
              · exact absurd (hp₁ p₂ h') (not_lt_of_lt (hp₂ p₁ h))
          subst heq
          have htails : ∀ q, q ∈ t₁ ↔ q ∈ t₂ := by
            intro q
            constructor
            · intro hq
              rcases List.mem_cons.mp ((hmem q).mp (List.mem_cons_of_mem _ hq)) with h | h
              · exact absurd (hp₁ q hq) (h ▸ lt_irrefl q.1)
              · exact h
            · intro hq
              rcases List.mem_cons.mp ((hmem q).mpr (List.mem_cons_of_mem _ hq)) with h | h
              · exact absurd (hp₂ q hq) (h ▸ lt_irrefl q.1)
              · exact h
          rw [ih ht₁ ht₂ htails]

/-! ## Key canonicalization: equivalent payloads have equal canonical
forms -/

theorem sizeOf_mem_arr {x : Json} {xs : List Json} (h : x ∈ xs) :
    sizeOf x < sizeOf (Json.arr xs) := by
  have := List.sizeOf_lt_of_mem h
  simp only [Json.arr.sizeOf_spec]
  omega

theorem sizeOf_mem_obj {k : String} {v : Json} {fs : List (String × Json)}
    (h : (k, v) ∈ fs) : sizeOf v < sizeOf (Json.obj fs) := by
  have h1 := List.sizeOf_lt_of_mem h
  have h2 : sizeOf v < sizeOf (k, v) := by
    simp only [Prod.mk.sizeOf_spec]
    omega
  simp only [Json.obj.sizeOf_spec]
  omega

theorem map_canon_aux (n : Nat)
    (ih : ∀ a b : Json, sizeOf a ≤ n → Json.equiv a b = true → canon a = canon b) :
    ∀ (xs ys : List Json), (∀ x ∈ xs, sizeOf x ≤ n) → xs.length = ys.length →
      (∀ p ∈ xs.zip ys, Json.equiv p.1 p.2 = true) →
      xs.map canon = ys.map canon := by
  intro xs
  induction xs with
  | nil =>
      intro ys _ hlen _
      cases ys with
      | nil => rfl
      | cons y ys' => simp at hlen
  | cons x xs' ihl =>
      intro ys hsz hlen hall
      cases ys with
      | nil => simp at hlen
      | cons y ys' =>
          simp only [List.map_cons]
          have h1 : canon x = canon y :=
            ih x y (hsz x (List.mem_cons_self _ _))
              (hall (x, y) (by simp [List.zip_cons_cons]))
          rw [h1]
          have h2 : xs'.map canon = ys'.map canon := by
            refine ihl ys' (fun z hz => hsz z (List.mem_cons_of_mem _ hz)) ?_ ?_
            · simpa using hlen
            · intro p hp
              exact hall p (by simp [List.zip_cons_cons, hp])
          rw [h2]

theorem obj_fields_aux (n : Nat)
    (ih : ∀ a b : Json, sizeOf a ≤ n → Json.equiv a b = true → canon a = canon b)
    (fs gs : List (String × Json))
    (hszf : ∀ p ∈ fs, sizeOf p.2 ≤ n)
    (hlen : fs.length = gs.length)
    (hnf : (fs.map Prod.fst).Nodup) (hng : (gs.map Prod.fst).Nodup)
    (hall : ∀ p ∈ fs, ∃ w, lookupJ p.1 gs = some w ∧ Json.equiv p.2 w = true) :
    sortPairs (fs.map fun p => (p.1, canon p.2)) =
      sortPairs (gs.map fun p => (p.1, canon p.2)) := by
  have hkF : ((fs.map fun p => (p.1, canon p.2)).map Prod.fst) = fs.map Prod.fst := by
    rw [List.map_map]
    rfl
  have hkG : ((gs.map fun p => (p.1, canon p.2)).map Prod.fst) = gs.map Prod.fst := by
    rw [List.map_map]
    rfl
  have hFG : ∀ q, q ∈ (fs.map fun p => (p.1, canon p.2)) ↔
      q ∈ (gs.map fun p => (p.1, canon p.2)) := by
    intro q
    constructor
    · intro hq
      obtain ⟨p, hp, rfl⟩ := List.mem_map.mp hq
      obtain ⟨w, hw, hew⟩ := hall p hp
      have hcan := ih p.2 w (hszf p hp) hew
      exact List.mem_map.mpr ⟨(p.1, w), lookupJ_mem hw, by simp [hcan]⟩
    · intro hq
      obtain ⟨r, hr, rfl⟩ := List.mem_map.mp hq
      have hsub : ∀ k ∈ gs.map Prod.fst, k ∈ fs.map Prod.fst := by
        have hsub' : ∀ k ∈ fs.map Prod.fst, k ∈ gs.map Prod.fst := by
          intro k hk
          obtain ⟨p, hp, hkp⟩ := List.mem_map.mp hk
          obtain ⟨w, hw, _⟩ := hall p hp
          exact List.mem_map.mpr ⟨(p.1, w), lookupJ_mem hw, hkp⟩
        have hset : (fs.map Prod.fst).toFinset = (gs.map Prod.fst).toFinset := by
          apply Finset.eq_of_subset_of_card_le
          · intro k hk
            exact List.mem_toFinset.mpr (hsub' k (List.mem_toFinset.mp hk))
          · rw [List.toFinset_card_of_nodup hng, List.toFinset_card_of_nodup hnf]
            simp [hlen]
        intro k hk
        have : k ∈ (gs.map Prod.fst).toFinset := List.mem_toFinset.mpr hk
        rw [← hset] at this
        exact List.mem_toFinset.mp this
      have hrk : r.1 ∈ fs.map Prod.fst :=
        hsub r.1 (List.mem_map.mpr ⟨r, hr, rfl⟩)
      obtain ⟨p, hp, hpk⟩ := List.mem_map.mp hrk
      obtain ⟨w, hw, hew⟩ := hall p hp
      have hlr : lookupJ p.1 gs = some r.2 := by
        rw [hpk]
        exact mem_lookupJ hng (by
          obtain ⟨rk, rv⟩ := r
          exact hr)
      rw [hw] at hlr
      have hwr : w = r.2 := by injection hlr
      rw [hwr] at hew
      have hcan := ih p.2 r.2 (hszf p hp) hew
      exact List.mem_map.mpr ⟨p, hp, by simp [hpk, hcan]⟩
  have hsF : (sortPairs (fs.map fun p => (p.1, canon p.2))).Pairwise keyLt := by
    apply pairwise_lt_of_le_nodup (sortPairs_sorted _)
    have hperm := (sortPairs_perm (fs.map fun p => (p.1, canon p.2))).map Prod.fst
    rw [hperm.nodup_iff, hkF]
    exact hnf
  have hsG : (sortPairs (gs.map fun p => (p.1, canon p.2))).Pairwise keyLt := by
    apply pairwise_lt_of_le_nodup (sortPairs_sorted _)
    have hperm := (sortPairs_perm (gs.map fun p => (p.1, canon p.2))).map Prod.fst
    rw [hperm.nodup_iff, hkG]
    exact hng
  apply eq_of_sorted_of_mem hsF hsG
  intro q
  rw [(sortPairs_perm _).mem_iff, (sortPairs_perm _).mem_iff]
  exact hFG q

theorem canon_eq_of_equiv_bounded :
    ∀ (n : Nat) (a b : Json), sizeOf a ≤ n → Json.equiv a b = true →
      canon a = canon b := by
  intro n
  induction n with
  | zero =>
      intro a b hsz _
      exfalso
      cases a <;> simp only [Json.null.sizeOf_spec, Json.bool.sizeOf_spec,
        Json.num.sizeOf_spec, Json.str.sizeOf_spec, Json.arr.sizeOf_spec,
        Json.obj.sizeOf_spec] at hsz <;> omega
  | succ n ih =>
      intro a b hsz heq
      cases a with
      | null => cases b <;> simp [Json.equiv, canon_null] at heq ⊢
      | bool x =>
          cases b <;> simp [Json.equiv] at heq
          rw [heq]
      | num x =>
          cases b <;> simp [Json.equiv] at heq
          rw [heq]
      | str x =>
          cases b <;> simp [Json.equiv] at heq
          rw [heq]
      | arr xs =>
          cases b with
          | null => simp [Json.equiv] at heq
          | bool y => simp [Json.equiv] at heq
          | num y => simp [Json.equiv] at heq
          | str y => simp [Json.equiv] at heq
          | obj gs => simp [Json.equiv] at heq
          | arr ys =>
              rw [equiv_arr] at heq
              simp only [Bool.and_eq_true, beq_iff_eq, List.all_eq_true] at heq
              obtain ⟨hlen, hall⟩ := heq
              rw [canon_arr, canon_arr]
              refine congrArg Json.arr (map_canon_aux n ih xs ys ?_ hlen hall)
              intro x hx
              have h1 := sizeOf_mem_arr hx
              simp only [Json.arr.sizeOf_spec] at h1 hsz
              omega
      | obj fs =>
          cases b with
          | null => simp [Json.equiv] at heq
          | bool y => simp [Json.equiv] at heq
          | num y => simp [Json.equiv] at heq
          | str y => simp [Json.equiv] at heq
          | arr ys => simp [Json.equiv] at heq
          | obj gs =>
              rw [equiv_obj] at heq
              simp only [Bool.and_eq_true, beq_iff_eq, List.all_eq_true] at heq
              obtain ⟨⟨⟨hlen, hnf⟩, hng⟩, hall⟩ := heq
              have hall' : ∀ p ∈ fs, ∃ w, lookupJ p.1 gs = some w ∧
                  Json.equiv p.2 w = true := by
                intro p hp
                have h := hall p hp
                cases hl : lookupJ p.1 gs with
                | none => rw [hl] at h; simp at h
                | some w => rw [hl] at h; exact ⟨w, rfl, h⟩
              rw [canon_obj, canon_obj]
              refine congrArg Json.obj (obj_fields_aux n ih fs gs ?_ hlen
                ((nodupKeys_iff fs).mp hnf) ((nodupKeys_iff gs).mp hng) hall')
              intro p hp
              obtain ⟨k, v⟩ := p
              have h1 := sizeOf_mem_obj hp
              simp only [Json.obj.sizeOf_spec] at h1 hsz
              simp only []
              omega

/-- Key-order-insensitive equal payloads have identical canonical
forms. -/
theorem canon_eq_of_equiv {a b : Json} (h : Json.equiv a b = true) :
    canon a = canon b :=
  canon_eq_of_equiv_bounded (sizeOf a) a b (le_refl _) h

/-! ## Shape of the hex digest -/

/-- Lowercase hexadecimal character test. -/
def isHexChar (c : Char) : Bool := "0123456789abcdef".toList.contains c

theorem hexDigit_isHex (n : Nat) : isHexChar (hexDigit (n % 16)) = true := by
  have h : n % 16 < 16 := Nat.mod_lt _ (by omega)
  have hall : ∀ m, m < 16 → isHexChar (hexDigit m) = true := by decide
  exact hall _ h

theorem hexOfBytes_length (bs : List Nat) : (hexOfBytes bs).length = 2 * bs.length := by
  induction bs with
  | nil => rfl
  | cons b rest ih =>
      simp only [hexOfBytes, List.length_cons, ih]
      omega

theorem hexOfBytes_mem (bs : List Nat) : ∀ c ∈ hexOfBytes bs, isHexChar c = true := by
  induction bs with
  | nil => simp [hexOfBytes]
  | cons b rest ih =>
      intro c hc
      simp only [hexOfBytes, List.mem_cons] at hc
      rcases hc with rfl | rfl | h
      · exact hexDigit_isHex _
      · exact hexDigit_isHex _
      · exact ih c h

theorem md5Hex_length (msg : List Nat) : (md5Hex msg).length = 32 := by
  simp only [md5Hex, String.length, hexOfBytes_length, wordLE, List.length_append,
    List.length_cons, List.length_nil]

theorem md5Hex_hex (msg : List Nat) : ∀ c ∈ (md5Hex msg).toList, isHexChar c = true := by
  simp only [md5Hex, String.toList]
  exact hexOfBytes_mem _

/-- C6: `get_cache_key` of two payloads that are equal under
key-order-insensitive equality (`Json.equiv`) is identical, and every
key is a 32-character lowercase-hex digest. -/
theorem get_cache_key_canonical (a b : Json) (h : Json.equiv a b = true) :
    CacheManager.get_cache_key a = CacheManager.get_cache_key b ∧
    (CacheManager.get_cache_key a).length = 32 ∧
    ∀ c ∈ (CacheManager.get_cache_key a).toList, isHexChar c = true := by
  refine ⟨?_, md5Hex_length _, md5Hex_hex _ ⟩
  unfold CacheManager.get_cache_key dumps
  rw [canon_eq_of_equiv h]

/-- Witness for C6: two summary-style payloads with the same bindings
inserted in different orders are `equiv`, hence share one cache key. -/
theorem get_cache_key_canonical_witness :
    Json.equiv
      (.obj [("task", .str "summary"), ("flow_name", .str "Demo"),
             ("interactions", .arr [.str "a", .str "b"])])
      (.obj [("interactions", .arr [.str "a", .str "b"]),
             ("task", .str "summary"), ("flow_name", .str "Demo")]) = true ∧
    CacheManager.get_cache_key
      (.obj [("task", .str "summary"), ("flow_name", .str "Demo"),
             ("interactions", .arr [.str "a", .str "b"])]) =
    CacheManager.get_cache_key
      (.obj [("interactions", .arr [.str "a", .str "b"]),
             ("task", .str "summary"), ("flow_name", .str "Demo")]) := by
  have h : Json.equiv
      (.obj [("task", .str "summary"), ("flow_name", .str "Demo"),
             ("interactions", .arr [.str "a", .str "b"])])
      (.obj [("interactions", .arr [.str "a", .str "b"]),
             ("task", .str "summary"), ("flow_name", .str "Demo")]) = true := by
    rw [equiv_obj]
    simp [nodupKeys, lookupJ, equiv_arr, equiv_str]
  exact ⟨h, (get_cache_key_canonical _ _ h).1⟩

/-! ## Claim theorems about the extractor -/

/-- C5: the extractor output is exactly the in-order step descriptors
followed by the in-order event descriptors: relative order of `steps`
and of `capturedEvents` is preserved, and every step-derived descriptor
precedes every event-derived one. -/
theorem extract_order_steps_before_events (flow : FlowData) :
    FlowAnalyzer.extract_user_interactions flow =
      flow.steps.filterMap FlowAnalyzer.stepDescriptor ++
        flow.capturedEvents.filterMap FlowAnalyzer.eventDescriptor := by
  unfold FlowAnalyzer.extract_user_interactions
  have hps : FlowAnalyzer.processStep =
      fun acc s => acc ++ (FlowAnalyzer.stepDescriptor s).toList :=
    funext fun acc => funext fun s => FlowAnalyzer.processStep_eq acc s
  have hpe : FlowAnalyzer.processEvent =
      fun acc e => acc ++ (FlowAnalyzer.eventDescriptor e).toList :=
    funext fun acc => funext fun e => FlowAnalyzer.processEvent_eq acc e
  rw [hps, hpe, FlowAnalyzer.foldl_append_filterMap,
    FlowAnalyzer.foldl_append_filterMap, List.nil_append]

/-- C7: a CHAPTER step yields `Started section: {title}` with the
subtitle as details exactly when the title is non-empty and its
lowercasing does not contain the substring `thank you`; otherwise
(empty title or a Thank-You chapter in any casing) nothing is
emitted. -/
theorem chapter_descriptor_iff (name : String) (s : Step)
    (h : s.type = "CHAPTER") :
    FlowAnalyzer.extract_user_interactions ⟨name, [s], []⟩ =
      (if s.title ≠ "" ∧ hasSubstr (pyLower s.title) "thank you" = false then
        [{ type := "chapter", action := "Started section: " ++ s.title,
           details := some s.subtitle, url := none, element_type := none }]
      else []) := by
  have he : FlowAnalyzer.extract_user_interactions ⟨name, [s], []⟩ =
      FlowAnalyzer.processStep [] s := rfl
  rw [he, FlowAnalyzer.processStep, if_pos (by simp [h])]
  by_cases h1 : s.title = ""
  · simp [h1]
  · by_cases h2 : hasSubstr (pyLower s.title) "thank you" = true
    · simp [h1, h2]
    · simp [h1, h2]

/-- Witness for C7: a normal chapter emits its descriptor; a chapter
whose title contains THANK YOU (uppercased) emits nothing. -/
theorem chapter_descriptor_iff_witness :
    FlowAnalyzer.extract_user_interactions
        ⟨"F", [⟨"CHAPTER", "Find a product", "sub", ⟨"", ""⟩, ⟨""⟩, []⟩], []⟩ =
      [{ type := "chapter", action := "Started section: Find a product",
         details := some "sub", url := none, element_type := none }] ∧
    FlowAnalyzer.extract_user_interactions
        ⟨"F", [⟨"CHAPTER", "THANK YOU for watching", "", ⟨"", ""⟩, ⟨""⟩, []⟩], []⟩ =
      [] :=
  ⟨(chapter_descriptor_iff "F" _ rfl).trans (by decide),
   (chapter_descriptor_iff "F" _ rfl).trans (by decide)⟩

/-- Counterexample to C2: a `dragging` event and a `click` event both
emit nothing, where the claim requires a "Dragged element" and a
"Clicked on page" descriptor respectively. -/
theorem event_mapping_counterexample :
    FlowAnalyzer.extract_user_interactions ⟨"F", [], [⟨"dragging"⟩]⟩ = [] ∧
    FlowAnalyzer.extract_user_interactions ⟨"F", [], [⟨"click"⟩]⟩ = [] :=
  ⟨rfl, rfl⟩

/-- C2 as amended: only `typing` and `scrolling` events produce
descriptors (with the fixed texts of the claim); every other event
kind — including `dragging` and `click` — emits nothing. -/
theorem event_mapping (name : String) (e : Event) :
    FlowAnalyzer.extract_user_interactions ⟨name, [], [e]⟩ =
      (if e.type = "typing" then
        [{ type := "typing", action := "Typed search query",
           details := some "User entered text in search field",
           url := none, element_type := none }]
      else if e.type = "scrolling" then
        [{ type := "scroll", action := "Scrolled page to view more content",
           details := some "User browsed through available options",
           url := none, element_type := none }]
      else []) := by
  have he : FlowAnalyzer.extract_user_interactions ⟨name, [], [e]⟩ =
      FlowAnalyzer.processEvent [] e := rfl
  rw [he, FlowAnalyzer.processEvent]
  by_cases h1 : e.type = "typing"
  · simp [h1]
  · by_cases h2 : e.type = "scrolling"
    · simp [h1, h2]
    · simp [h1, h2]

/-- Counterexample to C4: a step with the unknown tag FORM and a
non-empty title emits nothing, where the claim requires an
`Interacted with FORM: ...` descriptor. -/
theorem other_tag_counterexample :
    FlowAnalyzer.extract_user_interactions
        ⟨"F", [⟨"FORM", "Fill the form", "sub", ⟨"", ""⟩, ⟨""⟩, []⟩], []⟩ = [] ∧
    "Fill the form" ≠ "" :=
  ⟨rfl, by decide⟩

/-- C4 as amended: a step whose tag is none of CHAPTER, IMAGE, VIDEO
emits nothing, regardless of its title. -/
theorem other_tag_steps_emit_nothing (name : String) (s : Step)
    (h1 : s.type ≠ "CHAPTER") (h2 : s.type ≠ "IMAGE") (h3 : s.type ≠ "VIDEO") :
    FlowAnalyzer.extract_user_interactions ⟨name, [s], []⟩ = [] := by
  have he : FlowAnalyzer.extract_user_interactions ⟨name, [s], []⟩ =
      FlowAnalyzer.processStep [] s := rfl
  rw [he, FlowAnalyzer.processStep,
    if_neg (by simp [h1]), if_neg (by simp [h2]), if_neg (by simp [h3])]

/-- Witness for C4 (amended): a FORM step with non-empty title. -/
theorem other_tag_steps_emit_nothing_witness :
    FlowAnalyzer.extract_user_interactions
        ⟨"F", [⟨"FORM", "Checkout", "sub", ⟨"", ""⟩, ⟨""⟩, []⟩], []⟩ = [] :=
  other_tag_steps_emit_nothing "F" _ (by decide) (by decide) (by decide)

/-- Counterexample to C1: for `clickContext = {text: "", elementType:
"button"}` with no usable hotspot the code emits `Clicked the ''
button`, not `Clicked button`; and with text and elementType both
empty the code still emits a descriptor (`Performed an action`) where
the claim requires none. -/
theorem image_fallback_counterexample :
    FlowAnalyzer.extract_user_interactions
        ⟨"F", [⟨"IMAGE", "", "", ⟨"", "button"⟩, ⟨"https://x"⟩, []⟩], []⟩ =
      [{ type := "click", action := "Clicked the \x27\x27 button", details := none,
         url := some "https://x", element_type := some "button" }] ∧
    "Clicked the \x27\x27 button" ≠ "Clicked button" ∧
    FlowAnalyzer.extract_user_interactions
        ⟨"F", [⟨"IMAGE", "", "", ⟨"", ""⟩, ⟨"https://x"⟩, []⟩], []⟩ =
      [{ type := "click", action := "Performed an action", details := none,
         url := some "https://x", element_type := some "" }] :=
  ⟨rfl, by decide, rfl⟩

/-- C1 as amended: an IMAGE step without a usable hotspot label always
emits one click descriptor whose action is the element-type indexed
fallback string of `_generate_action_description` (e.g. `Clicked the
'{text}' button` for elementType `button`, and `Performed an action`
when text and elementType are both empty), with the page URL. -/
theorem image_fallback_descriptor (name : String) (s : Step)
    (h1 : s.type = "IMAGE")
    (h2 : s.hotspots = [] ∨ ∃ hs rest, s.hotspots = hs :: rest ∧ hs.label = "") :
    FlowAnalyzer.extract_user_interactions ⟨name, [s], []⟩ =
      [{ type := "click",
         action := FlowAnalyzer.clickFallback s.clickContext.text
           s.clickContext.elementType,
         details := none, url := some s.pageContext.url,
         element_type := some s.clickContext.elementType }] ∧
    FlowAnalyzer.clickFallback "" "button" = "Clicked the \x27\x27 button" ∧
    FlowAnalyzer.clickFallback "" "" = "Performed an action" := by
  refine ⟨?_, by decide, by decide⟩
  have he : FlowAnalyzer.extract_user_interactions ⟨name, [s], []⟩ =
      FlowAnalyzer.processStep [] s := rfl
  rw [he, FlowAnalyzer.processStep, if_neg (by simp [h1]), if_pos (by simp [h1])]
  have hact : FlowAnalyzer.generate_action_description s.clickContext.text
      s.clickContext.elementType s.clickContext s.pageContext s.hotspots =
      FlowAnalyzer.clickFallback s.clickContext.text s.clickContext.elementType := by
    rcases h2 with h | ⟨hs, rest, hh, hl⟩
    · rw [h, FlowAnalyzer.generate_action_description]
    · rw [hh]
      simp [FlowAnalyzer.generate_action_description, hl]
  dsimp only
  rw [hact, if_pos (bne_iff_ne.mpr (clickFallback_ne_empty _ _))]
  rfl

/-- Witness for C1 (amended): concrete IMAGE step with empty hotspots
and a link click context. -/
theorem image_fallback_descriptor_witness :
    FlowAnalyzer.extract_user_interactions
        ⟨"F", [⟨"IMAGE", "", "", ⟨"cart", "link"⟩, ⟨"https://u"⟩, []⟩], []⟩ =
      [{ type := "click",
         action := FlowAnalyzer.clickFallback "cart" "link",
         details := none, url := some "https://u", element_type := some "link" }] :=
  (image_fallback_descriptor "F" _ rfl (Or.inl rfl)).1

/-- Counterexample to C8: a non-empty hotspot label consisting only of
asterisks cleans to the empty string and then no descriptor at all is
emitted, where the claim requires one. -/
theorem hotspot_label_counterexample :
    FlowAnalyzer.extract_user_interactions
        ⟨"F", [⟨"IMAGE", "", "", ⟨"", ""⟩, ⟨"https://x"⟩, [⟨"*"⟩]⟩], []⟩ = [] ∧
    "*" ≠ "" :=
  ⟨rfl, by decide⟩

/-- C8 as amended: an IMAGE step whose first hotspot label is
non-empty emits a click descriptor whose action is the label with all
asterisks removed and whitespace trimmed and whose url is the page
URL — provided that cleaned label is non-empty; if cleaning leaves the
empty string, nothing is emitted.  `*Add to Cart*` cleans to `Add to
Cart`. -/
theorem hotspot_label_descriptor (name : String) (s : Step) (hs : Hotspot)
    (rest : List Hotspot) (h1 : s.type = "IMAGE") (h2 : s.hotspots = hs :: rest)
    (h3 : hs.label ≠ "") :
    (FlowAnalyzer.extract_user_interactions ⟨name, [s], []⟩ =
      if pyStrip (removeStars hs.label) ≠ "" then
        [{ type := "click", action := pyStrip (removeStars hs.label),
           details := none, url := some s.pageContext.url,
           element_type := some s.clickContext.elementType }]
      else []) ∧
    pyStrip (removeStars "*Add to Cart*") = "Add to Cart" := by
  refine ⟨?_, by decide⟩
  have he : FlowAnalyzer.extract_user_interactions ⟨name, [s], []⟩ =
      FlowAnalyzer.processStep [] s := rfl
  rw [he, FlowAnalyzer.processStep, if_neg (by simp [h1]), if_pos (by simp [h1])]
  have hact : FlowAnalyzer.generate_action_description s.clickContext.text
      s.clickContext.elementType s.clickContext s.pageContext s.hotspots =
      pyStrip (removeStars hs.label) := by
    rw [h2]
    simp [FlowAnalyzer.generate_action_description, bne_iff_ne, h3]
  dsimp only
  rw [hact]
  by_cases h4 : pyStrip (removeStars hs.label) = ""
  · simp [h4]
  · simp [h4]

/-- Witness for C8 (amended): the spec's own example hotspot. -/
theorem hotspot_label_descriptor_witness :
    FlowAnalyzer.extract_user_interactions
        ⟨"F", [⟨"IMAGE", "", "", ⟨"", "button"⟩, ⟨"https://x"⟩,
          [⟨"*Add to Cart*"⟩]⟩], []⟩ =
      [{ type := "click", action := "Add to Cart", details := none,
         url := some "https://x", element_type := some "button" }] :=
  ((hotspot_label_descriptor "F" _ _ [] rfl rfl (by decide)).1).trans (by decide)

/-! ## Claim theorems about the cache and the two generators -/

/-- Counterexample to C3: with a cached image entry in place (stale or
not — the code cannot tell), `generate_social_media_image` returns the
cached URL with no generation call and no cache change; no liveness
probe of any kind is consulted, so a probe-failing (expired) reference
is reused rather than regenerated. -/
theorem image_cache_hit_counterexample :
    FlowAnalyzer.generate_social_media_image
        (CacheManager.set_cache [] (FlowAnalyzer.imageCacheKey "F" "S")
          (.obj [("image_url", .str "https://stale")]))
        "F" "S" "https://fresh" =
      some ("https://stale", false,
        CacheManager.set_cache [] (FlowAnalyzer.imageCacheKey "F" "S")
          (.obj [("image_url", .str "https://stale")])) ∧
    "https://stale" ≠ "https://fresh" := by
  constructor
  · simp only [FlowAnalyzer.generate_social_media_image]
    rw [CacheManager.get_set_same]
    rfl
  · decide

/-- C3 as amended: on a truthy cache hit `generate_social_media_image`
reuses `cached['image_url']` unconditionally — it performs no liveness
probe, issues no fresh generation call, and leaves the cache
unchanged; staleness can only surface later, at download time. -/
theorem image_cache_hit_reuses_cached (σ : CacheStore)
    (flow_name summary fresh_url u : String) (fs : List (String × Json))
    (h1 : CacheManager.get_cached σ (FlowAnalyzer.imageCacheKey flow_name summary) =
      .obj fs)
    (h2 : fs ≠ [])
    (h3 : lookupJ "image_url" fs = some (.str u)) :
    FlowAnalyzer.generate_social_media_image σ flow_name summary fresh_url =
      some (u, false, σ) := by
  simp only [FlowAnalyzer.generate_social_media_image, h1]
  have ht : pyTruthy (.obj fs) = true := by
    simp [pyTruthy, h2]
  rw [ht]
  simp only [if_true, h3]

/-- Witness for C3 (amended): concrete cached entry. -/
theorem image_cache_hit_reuses_cached_witness :
    FlowAnalyzer.generate_social_media_image
        (CacheManager.set_cache [] (FlowAnalyzer.imageCacheKey "Flow" "Sum")
          (.obj [("image_url", .str "https://img")]))
        "Flow" "Sum" "https://new" =
      some ("https://img", false,
        CacheManager.set_cache [] (FlowAnalyzer.imageCacheKey "Flow" "Sum")
          (.obj [("image_url", .str "https://img")])) :=
  image_cache_hit_reuses_cached _ "Flow" "Sum" "https://new" "https://img" _
    (CacheManager.get_set_same _ _ _) (by simp) rfl

/-- C9: cache round-trip — `set_cache` then `get_cached` on the same
key returns the stored value, and `get_cached` of a never-written key
returns the absent marker (Python `None`). -/
theorem cache_roundtrip (σ : CacheStore) (k : String) (v : Json) :
    CacheManager.get_cached (CacheManager.set_cache σ k v) k = v ∧
    ((∀ w, (k, w) ∉ σ) → CacheManager.get_cached σ k = .null) :=
  ⟨CacheManager.get_set_same σ k v, CacheManager.get_fresh σ k⟩

/-- Witness for C9: a concrete write/read pair and a concrete fresh
key. -/
theorem cache_roundtrip_witness :
    CacheManager.get_cached (CacheManager.set_cache [] "k1" (.str "v")) "k1" =
      .str "v" ∧
    CacheManager.get_cached [] "k2" = .null :=
  ⟨(cache_roundtrip [] "k1" (.str "v")).1,
   (cache_roundtrip [] "k2" .null).2 (by simp)⟩

/-- C10: a stored `null` is indistinguishable from absence —
`get_cached` after `set_cache σ k null` returns exactly what it
returns for a never-written key, that result is falsy under the
`if cached:` presence test, and `generate_summary` facing a stored
`null` at its key behaves as on a miss: it issues the generation
call. -/
theorem null_entry_is_cache_miss (σ : CacheStore) (k : String)
    (hk : ∀ w, (k, w) ∉ σ) :
    CacheManager.get_cached (CacheManager.set_cache σ k .null) k =
      CacheManager.get_cached σ k ∧
    pyTruthy (CacheManager.get_cached (CacheManager.set_cache σ k .null) k) =
      false ∧
    (∀ (σ₂ : CacheStore) (flow_name : String)
        (interactions : List Interaction) (fresh : String),
      CacheManager.get_cached σ₂
          (FlowAnalyzer.summaryCacheKey flow_name interactions) = .null →
      ∃ s σ₃, FlowAnalyzer.generate_summary σ₂ flow_name interactions fresh =
        some (.str s, true, σ₃)) := by
  refine ⟨?_, ?_, ?_⟩
  · rw [CacheManager.get_set_same, CacheManager.get_fresh σ k hk]
  · rw [CacheManager.get_set_same]
    rfl
  · intro σ₂ flow_name interactions fresh hnull
    simp only [FlowAnalyzer.generate_summary, hnull]
    exact ⟨pyStrip fresh, _, rfl⟩

/-- Witness for C10: concrete store with a written null entry. -/
theorem null_entry_is_cache_miss_witness :
    CacheManager.get_cached (CacheManager.set_cache [] "x" .null) "x" =
      CacheManager.get_cached [] "x" ∧
    pyTruthy (CacheManager.get_cached (CacheManager.set_cache [] "x" .null) "x") =
      false ∧
    (∃ s σ₃, FlowAnalyzer.generate_summary
        (CacheManager.set_cache [] (FlowAnalyzer.summaryCacheKey "F" []) .null)
        "F" [] "hello" = some (.str s, true, σ₃)) := by
  have h := null_entry_is_cache_miss [] "x" (by simp)
  exact ⟨h.1, h.2.1,
    h.2.2 (CacheManager.set_cache [] (FlowAnalyzer.summaryCacheKey "F" []) .null)
      "F" [] "hello" (CacheManager.get_set_same _ _ _)⟩
